import Mathlib

/-!
Shallow embedding of `src/utils/eval_PLM.py` (ProtoRKD).

The file embeds the two wrapper adapters `WrappedHuggingfaceTransformer` and
`WrappedOpenCLIPTransformer` (their length-bucketed `encode` methods), the
`_text_length` helper nested in both, the `__main__` model-name dispatch over
the three hardcoded model lists, and the results-file output.

Python exceptions are modelled with `Except PyErr`; external library calls
(`np.argsort`, `torch.stack`, `np.asarray`, `tqdm`) are modelled by their
documented behaviour, as noted on each definition.
-/

/-- Python exception kinds that the script can raise on the paths modelled
here.  An `Except.error` outcome models an uncaught Python exception. -/
inductive PyErr where
  | typeError
  | nameError
  | valueError
  | indexError
  | stopIteration
  | runtimeError
deriving DecidableEq

/-- Model of the Python values that can appear as elements of the `sentences`
argument of `encode` (and, recursively, inside them): strings (as lists of
characters), lists, dicts (only their values, in insertion order, matter to
the embedded code), integers, and objects without a `__len__` method. -/
inductive PyVal where
  | vStr (s : List Char)
  | vInt (n : Int)
  | vList (l : List PyVal)
  | vDict (values : List PyVal)
  | vNoLen

/-- Python `len`: `none` models a `TypeError` because the value has no
`__len__` (ints and plain objects).  `len` of a dict is its number of
entries. -/
def pyLen : PyVal → Option Nat
  | .vStr s => some s.length
  | .vInt _ => none
  | .vList l => some l.length
  | .vDict vs => some vs.length
  | .vNoLen => none

/-- Python `isinstance(text, dict)`. -/
def isPyDict : PyVal → Bool
  | .vDict _ => true
  | _ => false

/-- Python `isinstance(x, int)`. -/
def isPyInt : PyVal → Bool
  | .vInt _ => true
  | _ => false

/-- The elements obtained by iterating over a value (used by the embedded
code only on strings and lists): iterating a Python string yields its
characters as one-character strings. -/
def pyElems : PyVal → List PyVal
  | .vStr s => s.map (fun c => .vStr [c])
  | .vList l => l
  | .vDict vs => vs
  | _ => []

/-- The helper closure `_text_length` defined (with identical text) inside
both `WrappedHuggingfaceTransformer.encode` (lines 31-39) and
`WrappedOpenCLIPTransformer.encode` (lines 98-106):

    if isinstance(text, dict):
        return len(next(iter(text.values())))
    elif not hasattr(text, '__len__'):
        return 1
    elif len(text) == 0 or isinstance(text[0], int):
        return len(text)
    else:
        return sum([len(t) for t in text])

On an empty dict, `next(iter(...))` raises `StopIteration`; `len` of a value
without `__len__` raises `TypeError`. -/
def _text_length (text : PyVal) : Except PyErr Nat :=
  match text with
  | .vDict [] => .error .stopIteration
  | .vDict (v :: _) =>
    match pyLen v with
    | none => .error .typeError
    | some n => .ok n
  | t =>
    match pyLen t with
    | none => .ok 1
    | some n =>
      if n = 0 then .ok n
      else if isPyInt ((pyElems t).headD .vNoLen) then .ok n
      else
        match (pyElems t).mapM pyLen with
        | none => .error .typeError
        | some ls => .ok ls.sum

/-- Python list indexing `l[i]` for a nonnegative index (the indices the
embedded code uses all come from `np.argsort`, hence are nonnegative):
out-of-range access raises `IndexError`. -/
def pyGet {A : Type} (l : List A) (i : Nat) : Except PyErr A :=
  match l.get? i with
  | some x => .ok x
  | none => .error .indexError

/-- Python slice `l[start:stop]` for nonnegative bounds. -/
def pySlice {A : Type} (l : List A) (start stop : Nat) : List A :=
  (l.drop start).take (stop - start)

/-- The start indices produced by `range(0, n, step)` for a positive step:
`0, step, 2*step, ...` while below `n`. -/
def batchStartsList (n step : Nat) : List Nat :=
  (List.range ((n + step - 1) / step)).map (fun k => k * step)

/-- Python `range(0, n, step)`: a zero step raises `ValueError`. -/
def pyRange0 (n step : Nat) : Except PyErr (List Nat) :=
  if step = 0 then .error .valueError else .ok (batchStartsList n step)

/-- Models `torch.stack` on a Python list of tensors: it raises
`RuntimeError` (\"stack expects a non-empty TensorList\") on an empty list and
otherwise stacks in list order, modelled as the list itself. -/
def torchStack {E : Type} (l : List E) : Except PyErr (List E) :=
  if l.isEmpty then .error .runtimeError else .ok l

/-- Models `np.asarray([emb.numpy() for emb in all_embeddings])`: an
elementwise conversion that keeps the list order, modelled as the identity on
the order of elements. -/
def npAsarray {E : Type} (l : List E) : List E := l

/-- The result of `encode`: a stacked tensor (`convert_to_tensor` branch), a
numpy array (`convert_to_numpy` branch), or the plain Python list of
per-sentence embeddings. -/
inductive EncodeResult (E : Type) where
  | tensor (l : List E)
  | nparray (l : List E)
  | pyList (l : List E)
deriving DecidableEq

/-- The names bound at module level by the import statements of
`eval_PLM.py` (lines 1-13).  `tqdm` is not among them, so evaluating
`tqdm.tqdm(...)` raises `NameError`. -/
def moduleImportedNames : List String :=
  ["torch", "nn", "np", "pd", "logging", "sys", "nlp_eval", "parse_args",
   "open_clip", "AutoConfig", "AutoTokenizer", "AutoModel",
   "SentenceTransformer"]

/-- Contract of `np.argsort(keys)` (the only property numpy guarantees for
the default sort kind): the result is a permutation `p` of
`0, ..., len(keys)-1` such that `keys` is non-decreasing along `p`.  The
tie order of the default `kind='quicksort'` is left unspecified. -/
def IsArgsortPerm (keys : List Nat) (p : List Nat) : Prop :=
  p.Perm (List.range keys.length) ∧
    p.Pairwise (fun i j => keys.getD i 0 ≤ keys.getD j 0)

/-- A function modelling `np.argsort` satisfies the argsort contract on every
input. -/
def IsArgsort (f : List Nat → List Nat) : Prop :=
  ∀ keys, IsArgsortPerm keys (f keys)

/-- A concrete executable argsort (a stable one), used to instantiate the
abstract `np.argsort` model on concrete inputs. -/
def stableArgsort (keys : List Nat) : List Nat :=
  List.insertionSort (fun i j => keys.getD i 0 ≤ keys.getD j 0)
    (List.range keys.length)

/-- The `encode` method of `WrappedHuggingfaceTransformer`
(`eval_PLM.py` lines 29-55).  `ef` models `self.encode_text` (its second
argument is the `projection` keyword, passed as `False` here); `argsortFn`
models `np.argsort`.  `show_progress_bar` is accepted and ignored, as in the
source.  The Python numeric defaults are `batch_size=32`,
`show_progress_bar=None` (falsy), `convert_to_numpy=True`,
`convert_to_tensor=True`. -/
def WrappedHuggingfaceTransformer.encode {E : Type}
    (ef : List PyVal → Bool → List E) (argsortFn : List Nat → List Nat)
    (sentences : List PyVal) (batch_size : Nat)
    (show_progress_bar convert_to_numpy convert_to_tensor : Bool) :
    Except PyErr (EncodeResult E) :=
  match sentences.mapM _text_length with
  | .error e => .error e
  | .ok lens =>
    let length_sorted_idx := argsortFn lens
    match length_sorted_idx.mapM (pyGet sentences) with
    | .error e => .error e
    | .ok sentences_sorted =>
      match pyRange0 sentences.length batch_size with
      | .error e => .error e
      | .ok starts =>
        let all_embeddings :=
          (starts.map (fun start_index =>
            ef (pySlice sentences_sorted start_index (start_index + batch_size))
              false)).flatten
        match (argsortFn length_sorted_idx).mapM (pyGet all_embeddings) with
        | .error e => .error e
        | .ok all_unsorted =>
          if convert_to_tensor then
            match torchStack all_unsorted with
            | .error e => .error e
            | .ok stacked => .ok (.tensor stacked)
          else if convert_to_numpy then .ok (.nparray (npAsarray all_unsorted))
          else .ok (.pyList all_unsorted)

/-- The `encode` method of `WrappedOpenCLIPTransformer`
(`eval_PLM.py` lines 96-123).  It differs from the Huggingface wrapper in
exactly two places: the batch iterator is wrapped in `tqdm.tqdm` when
`show_progress_bar` is truthy (raising `NameError`, since `tqdm` is never
imported), and `self.encode_text` is called with `projection=True`. -/
def WrappedOpenCLIPTransformer.encode {E : Type}
    (ef : List PyVal → Bool → List E) (argsortFn : List Nat → List Nat)
    (sentences : List PyVal) (batch_size : Nat)
    (show_progress_bar convert_to_numpy convert_to_tensor : Bool) :
    Except PyErr (EncodeResult E) :=
  match sentences.mapM _text_length with
  | .error e => .error e
  | .ok lens =>
    let length_sorted_idx := argsortFn lens
    match length_sorted_idx.mapM (pyGet sentences) with
    | .error e => .error e
    | .ok sentences_sorted =>
      match (if show_progress_bar then
               (if "tqdm" ∈ moduleImportedNames then
                  pyRange0 sentences.length batch_size
                else .error PyErr.nameError)
             else pyRange0 sentences.length batch_size) with
      | .error e => .error e
      | .ok starts =>
        let all_embeddings :=
          (starts.map (fun start_index =>
            ef (pySlice sentences_sorted start_index (start_index + batch_size))
              true)).flatten
        match (argsortFn length_sorted_idx).mapM (pyGet all_embeddings) with
        | .error e => .error e
        | .ok all_unsorted =>
          if convert_to_tensor then
            match torchStack all_unsorted with
            | .error e => .error e
            | .ok stacked => .ok (.tensor stacked)
          else if convert_to_numpy then .ok (.nparray (npAsarray all_unsorted))
          else .ok (.pyList all_unsorted)

/-- The hardcoded list `huggingface_transformers` from `__main__`
(`eval_PLM.py` lines 163-188). -/
def huggingface_transformers : List String :=
  ["bert-base-uncased",
   "bert-base-cased",
   "bert-large-uncased",
   "bert-large-cased",
   "roberta-base",
   "roberta-large",
   "roberta-large-mnli",
   "facebook/muppet-roberta-large",
   "facebook/contriever",
   "facebook/contriever-msmarco",
   "Jean-Baptiste/roberta-large-ner-english",
   "princeton-nlp/unsup-simcse-roberta-large",
   "princeton-nlp/sup-simcse-roberta-large",
   "xlm-roberta-large",
   "xlm-roberta-large-finetuned-conll03-english",
   "deepset/xlm-roberta-large-squad2",
   "joeddav/xlm-roberta-large-xnli",
   "sentence-transformers/distiluse-base-multilingual-cased-v2",
   "sentence-transformers/paraphrase-distilroberta-base-v2",
   "sentence-transformers/paraphrase-MiniLM-L6-v2",
   "sentence-transformers/msmarco-distilbert-base-tas-b",
   "sentence-transformers/all-MiniLM-L12-v1",
   "sentence-transformers/all-mpnet-base-v2",
   "sentence-transformers/all-roberta-large-v1"]

/-- The hardcoded list `sentence_transformers` from `__main__`
(`eval_PLM.py` lines 190-193). -/
def sentence_transformers : List String :=
  ["average_word_embeddings_glove.6B.300d",
   "average_word_embeddings_komninos"]

/-- The hardcoded list `open_clip_transformers` from `__main__`
(`eval_PLM.py` lines 195-205; `RN50x64` is commented out in the source). -/
def open_clip_transformers : List String :=
  ["RN50",
   "RN101",
   "RN50x4",
   "RN50x16",
   "ViT-B-32",
   "ViT-B-16",
   "ViT-L-14",
   "ViT-L-14-336"]

/-- Outcome of the `__main__` dispatch: which adapter is constructed, or the
unconditional failure of the final `else` branch (`raise 'wtf?'`, itself a
`TypeError` in Python 3 since a string is not a valid exception object). -/
inductive AdapterChoice where
  | wrappedHF
  | sentenceT
  | wrappedOC
  | failure
deriving DecidableEq

/-- The `__main__` dispatch over the model name (`eval_PLM.py` lines
208-215): three chained membership tests against the hardcoded lists, with an
unconditional raise in the final `else`. -/
def dispatch (model_name : String) : AdapterChoice :=
  if model_name ∈ huggingface_transformers then .wrappedHF
  else if model_name ∈ sentence_transformers then .sentenceT
  else if model_name ∈ open_clip_transformers then .wrappedOC
  else .failure

/-- A cell of the single-row results table: either a numeric score returned
by the external evaluator `nlp_eval` (score type `V` kept abstract) or the
model-name string stored under the `model` key. -/
inductive PdCell (V : Type) where
  | score (v : V)
  | name (s : String)
deriving DecidableEq

/-- Python dict assignment `d[k] = v` on a dict modelled as its ordered list
of key/value pairs: an existing key keeps its position and gets the new
value, a new key is appended at the end. -/
def pyDictSet {A : Type} (d : List (String × A)) (k : String) (v : A) :
    List (String × A) :=
  if d.any (fun kv => kv.fst == k) then
    d.map (fun kv => if kv.fst == k then (k, v) else kv)
  else d ++ [(k, v)]

/-- The file written by `results.to_csv(...)`: its path, the separator
passed as `sep`, the header (column names, in dict insertion order, as
rendered by `pd.DataFrame(results, index=[0])`), and the single data row. -/
structure CsvFile (V : Type) where
  path : String
  sep : Char
  header : List String
  row : List (PdCell V)
deriving DecidableEq

/-- The results output of `__main__` (`eval_PLM.py` lines 218-225): the
metric mapping returned by `nlp_eval` is augmented with
`results['model'] = model_name` and written as a tab-separated single-row
table to `PLM_evaluations/sts-{model_name.replace("/", "-")}.csv`. -/
def scriptOutput {V : Type} (metrics : List (String × V))
    (model_name : String) : CsvFile V :=
  let results :=
    pyDictSet (metrics.map (fun kv => (kv.fst, PdCell.score kv.snd)))
      "model" (PdCell.name model_name)
  CsvFile.mk
    ("PLM_evaluations/sts-" ++ model_name.replace "/" "-" ++ ".csv")
    '\t'
    (results.map Prod.fst)
    (results.map Prod.snd)

/-- Rendering of the header line of the tab-separated output file. -/
def tsvHeaderLine {V : Type} (f : CsvFile V) : String :=
  String.intercalate (String.mk [f.sep]) f.header

/-! ### Helper lemmas -/

theorem except_bind_ok {α β ε : Type} (a : α) (f : α → Except ε β) :
    (Except.ok a >>= f) = f a := rfl

theorem except_bind_error {α β ε : Type} (e : ε) (f : α → Except ε β) :
    (Except.error e >>= f : Except ε β) = Except.error e := rfl

theorem except_pure_eq {α ε : Type} (a : α) :
    (pure a : Except ε α) = Except.ok a := rfl

/-- A successful `mapM` over `Except` returns one output per input. -/
theorem mapM_except_ok_length {α β ε : Type} (f : α → Except ε β) :
    ∀ (l : List α) (ys : List β), l.mapM f = .ok ys → ys.length = l.length := by
  intro l
  rw [← List.mapM'_eq_mapM]
  induction l with
  | nil =>
    intro ys h
    simp only [List.mapM', except_pure_eq, Except.ok.injEq] at h
    simp [← h]
  | cons a l ih =>
    intro ys h
    simp only [List.mapM'] at h
    cases hfa : f a with
    | error e => rw [hfa, except_bind_error] at h; exact absurd h (by simp)
    | ok b =>
      rw [hfa, except_bind_ok] at h
      cases hml : List.mapM' f l with
      | error e => rw [hml, except_bind_error] at h; exact absurd h (by simp)
      | ok bs =>
        rw [hml, except_bind_ok, except_pure_eq, Except.ok.injEq] at h
        subst h
        simp [ih bs hml]

/-- Indexing with a list of in-range indices succeeds and computes the
corresponding `getD` values. -/
theorem mapM_pyGet_of_lt {A : Type} (l : List A) (d : A) :
    ∀ (idxs : List Nat), (∀ i ∈ idxs, i < l.length) →
      idxs.mapM (pyGet l) = .ok (idxs.map (fun i => l.getD i d)) := by
  intro idxs
  rw [← List.mapM'_eq_mapM]
  induction idxs with
  | nil => intro _; simp [List.mapM', except_pure_eq]
  | cons i idxs ih =>
    intro hb
    have hi : i < l.length := hb i (by simp)
    have hget : pyGet l i = .ok (l.getD i d) := by
      simp [pyGet, List.get?_eq_getElem?, List.getElem?_eq_getElem hi,
        List.getD_eq_getElem?_getD, Option.getD]
    simp only [List.mapM', hget, except_bind_ok,
      ih (fun j hj => hb j (List.mem_cons_of_mem _ hj)), except_bind_ok,
      except_pure_eq, List.map_cons]

/-- Reading every position of a list in order reproduces the list. -/
theorem map_getD_range {A : Type} (l : List A) (d : A) :
    (List.range l.length).map (fun i => l.getD i d) = l := by
  apply List.ext_getElem
  · simp
  · intro i h1 h2
    simp [List.getD_eq_getElem?_getD, List.getElem?_eq_getElem h2]

theorem getD_map_of_lt {A B : Type} (f : A → B) (l : List A) {i : Nat}
    (h : i < l.length) (d : B) (d' : A) :
    (l.map f).getD i d = f (l.getD i d') := by
  have h' : i < (l.map f).length := by simpa using h
  simp [List.getD_eq_getElem?_getD, List.getElem?_eq_getElem h,
    List.getElem?_eq_getElem h']

/-- Members of a permutation of `range n` are below `n`. -/
theorem mem_lt_of_perm_range {p : List Nat} {n : Nat}
    (hp : p.Perm (List.range n)) : ∀ i ∈ p, i < n := by
  intro i hi
  have := hp.mem_iff.mp hi
  simpa [List.mem_range] using this

theorem take_add_take {A : Type} (l : List A) (m k : Nat) :
    l.take m ++ (l.drop m).take k = l.take (m + k) := by
  rw [List.take_drop]
  have h := List.take_append_drop m (l.take (m + k))
  rw [List.take_take, Nat.min_eq_left (Nat.le_add_right m k)] at h
  exact h

theorem flatten_slices_take {A : Type} (l : List A) (bs : Nat) :
    ∀ k, (((List.range k).map (fun i => i * bs)).map
        (fun st => pySlice l st (st + bs))).flatten = l.take (k * bs) := by
  intro k
  induction k with
  | zero => simp
  | succ k ih =>
    rw [List.range_succ, List.map_append, List.map_append, List.flatten_append,
      ih]
    have hsl : pySlice l (k * bs) (k * bs + bs) = (l.drop (k * bs)).take bs := by
      simp [pySlice, Nat.add_sub_cancel_left]
    simp only [List.map_cons, List.map_nil, List.flatten_cons,
      List.flatten_nil, List.append_nil, hsl]
    rw [take_add_take, Nat.succ_mul]

/-- Rebatching by the computed start indices and concatenating reproduces the
sorted list: the chunks are a partition. -/
theorem flatten_batch_slices {A : Type} (l : List A) (bs : Nat) (hbs : 0 < bs) :
    ((batchStartsList l.length bs).map
      (fun st => pySlice l st (st + bs))).flatten = l := by
  rw [batchStartsList, flatten_slices_take]
  apply List.take_of_length_le
  rcases Nat.eq_zero_or_pos l.length with h0 | hpos
  · simp [h0]
  · have hrw : l.length + bs - 1 = (l.length - 1) + bs := by omega
    rw [hrw, Nat.add_div_right _ hbs]
    have h2 : l.length - 1 < ((l.length - 1) / bs + 1) * bs :=
      (Nat.div_lt_iff_lt_mul hbs).mp (Nat.lt_succ_self _)
    omega

/-- The number of chunks is the ceiling of `n / bs`; with `0 < n ≤ bs` it
is exactly one. -/
theorem batchStartsList_length (n bs : Nat) :
    (batchStartsList n bs).length = (n + bs - 1) / bs := by
  simp [batchStartsList]

/-- Sorting the sort permutation itself yields the inverse permutation:
composing the two gives back `0, ..., n-1`. -/
theorem argsort_inverse {p q : List Nat} {n : Nat}
    (hp : p.Perm (List.range n)) (hq : IsArgsortPerm p q) :
    q.map (fun i => p.getD i 0) = List.range n := by
  obtain ⟨hq1, hq2⟩ := hq
  have hplen : p.length = n := by
    simpa using hp.length_eq
  have hqperm : (q.map (fun i => p.getD i 0)).Perm (List.range n) := by
    have h1 : (q.map (fun i => p.getD i 0)).Perm
        ((List.range p.length).map (fun i => p.getD i 0)) := hq1.map _
    rw [map_getD_range] at h1
    exact h1.trans hp
  have hsorted : (q.map (fun i => p.getD i 0)).Pairwise (· ≤ ·) := by
    exact (List.pairwise_map).mpr hq2
  exact List.eq_of_perm_of_sorted hqperm hsorted (List.sorted_le_range n)

/-- The concrete `stableArgsort` satisfies the `np.argsort` contract. -/
theorem stableArgsort_isArgsort : IsArgsort stableArgsort := by
  intro keys
  constructor
  · exact List.perm_insertionSort _ _
  · have htot : IsTotal Nat (fun i j => keys.getD i 0 ≤ keys.getD j 0) :=
      ⟨fun a b => Nat.le_total _ _⟩
    have htrans : IsTrans Nat (fun i j => keys.getD i 0 ≤ keys.getD j 0) :=
      ⟨fun a b c => Nat.le_trans⟩
    exact @List.sorted_insertionSort Nat _ _ htot htrans _

/-- Core computation lemma: with a per-sentence encoding primitive (one
embedding per text, each depending only on that text) and any function
satisfying the `np.argsort` contract, the Huggingface wrapper's `encode`
computes one embedding per input text in the original input order. -/
theorem encodeHF_pointwise {E : Type} (e : PyVal → E)
    (argsortFn : List Nat → List Nat) (hAs : IsArgsort argsortFn)
    (sentences : List PyVal) (lens : List Nat)
    (hlens : sentences.mapM _text_length = .ok lens)
    (batch_size : Nat) (hbs : 0 < batch_size) (spb ctn ctt : Bool) :
    WrappedHuggingfaceTransformer.encode (fun b _ => b.map e) argsortFn
        sentences batch_size spb ctn ctt =
      if ctt then (torchStack (sentences.map e)).map EncodeResult.tensor
      else if ctn then .ok (.nparray (npAsarray (sentences.map e)))
      else .ok (.pyList (sentences.map e)) := by
  have hn : lens.length = sentences.length := mapM_except_ok_length _ _ _ hlens
  have hp1 : (argsortFn lens).Perm (List.range sentences.length) := by
    have := (hAs lens).1
    rwa [hn] at this
  have hplen : (argsortFn lens).length = sentences.length := by
    simpa using hp1.length_eq
  have hplt : ∀ i ∈ argsortFn lens, i < sentences.length :=
    mem_lt_of_perm_range hp1
  have hsorted := mapM_pyGet_of_lt sentences PyVal.vNoLen (argsortFn lens) hplt
  have hrange : pyRange0 sentences.length batch_size =
      .ok (batchStartsList sentences.length batch_size) := by
    rw [pyRange0, if_neg (by omega)]
  have hSlen : ((argsortFn lens).map
      (fun i => sentences.getD i PyVal.vNoLen)).length = sentences.length := by
    simpa using hplen
  have hflat : ((batchStartsList sentences.length batch_size).map
      (fun start_index =>
        (pySlice ((argsortFn lens).map (fun i => sentences.getD i PyVal.vNoLen))
          start_index (start_index + batch_size)).map e)).flatten =
      ((argsortFn lens).map (fun i => sentences.getD i PyVal.vNoLen)).map e := by
    have h1 : (fun start_index =>
        (pySlice ((argsortFn lens).map (fun i => sentences.getD i PyVal.vNoLen))
          start_index (start_index + batch_size)).map e) =
        (fun start_index =>
          pySlice (((argsortFn lens).map
            (fun i => sentences.getD i PyVal.vNoLen)).map e)
            start_index (start_index + batch_size)) := by
      funext st
      simp [pySlice, List.map_take, List.map_drop]
    rw [h1]
    have h2 : (((argsortFn lens).map
        (fun i => sentences.getD i PyVal.vNoLen)).map e).length =
        sentences.length := by simpa using hplen
    rw [← h2]
    exact flatten_batch_slices _ _ hbs
  have hq := hAs (argsortFn lens)
  have hqperm : (argsortFn (argsortFn lens)).Perm
      (List.range sentences.length) := by
    have := hq.1
    rwa [hplen] at this
  have hqlt : ∀ i ∈ argsortFn (argsortFn lens),
      i < (((argsortFn lens).map
        (fun j => sentences.getD j PyVal.vNoLen)).map e).length := by
    intro i hi
    have := mem_lt_of_perm_range hqperm i hi
    simpa [hplen] using this
  have hall := mapM_pyGet_of_lt
    (((argsortFn lens).map (fun j => sentences.getD j PyVal.vNoLen)).map e)
    (e PyVal.vNoLen) (argsortFn (argsortFn lens)) hqlt
  have hfinal : (argsortFn (argsortFn lens)).map
      (fun i => (((argsortFn lens).map
        (fun j => sentences.getD j PyVal.vNoLen)).map e).getD i
          (e PyVal.vNoLen)) = sentences.map e := by
    have hstep1 : ∀ i ∈ argsortFn (argsortFn lens),
        (((argsortFn lens).map
          (fun j => sentences.getD j PyVal.vNoLen)).map e).getD i
            (e PyVal.vNoLen) =
        e (sentences.getD ((argsortFn lens).getD i 0) PyVal.vNoLen) := by
      intro i hi
      have hiltp : i < (argsortFn lens).length := by
        rw [hplen]; exact mem_lt_of_perm_range hqperm i hi
      have hiltS : i < ((argsortFn lens).map
          (fun j => sentences.getD j PyVal.vNoLen)).length := by
        simpa using hiltp
      rw [getD_map_of_lt e _ hiltS _ PyVal.vNoLen,
        getD_map_of_lt (fun j => sentences.getD j PyVal.vNoLen) _ hiltp _ 0]
    rw [List.map_congr_left hstep1]
    have hcomp : (argsortFn (argsortFn lens)).map
        (fun i => e (sentences.getD ((argsortFn lens).getD i 0) PyVal.vNoLen)) =
        ((argsortFn (argsortFn lens)).map
          (fun i => (argsortFn lens).getD i 0)).map
            (fun j => e (sentences.getD j PyVal.vNoLen)) := by
      rw [List.map_map]; rfl
    rw [hcomp, argsort_inverse hp1 hq]
    have hsplit : (List.range sentences.length).map
        (fun j => e (sentences.getD j PyVal.vNoLen)) =
        ((List.range sentences.length).map
          (fun j => sentences.getD j PyVal.vNoLen)).map e := by
      rw [List.map_map]; rfl
    rw [hsplit, map_getD_range]
  simp only [WrappedHuggingfaceTransformer.encode, hlens, hsorted, hrange,
    hflat, hall, hfinal]
  cases httv : torchStack (sentences.map e) <;>
    cases ctt <;> cases ctn <;> simp [Except.map, httv]

/-- With the progress bar off, the two wrappers' `encode` bodies are the
same computation whenever the encoding primitive does not distinguish the
`projection` flag (the only argument on which their calls differ). -/
theorem encode_wrappers_agree {E : Type} (ef : List PyVal → Bool → List E)
    (hef : ∀ b, ef b false = ef b true) (argsortFn : List Nat → List Nat)
    (sentences : List PyVal) (batch_size : Nat) (spb ctn ctt : Bool) :
    WrappedHuggingfaceTransformer.encode ef argsortFn sentences batch_size
        spb ctn ctt =
      WrappedOpenCLIPTransformer.encode ef argsortFn sentences batch_size
        false ctn ctt := by
  simp only [WrappedHuggingfaceTransformer.encode,
    WrappedOpenCLIPTransformer.encode, hef, Bool.false_eq_true, if_false]


/-- The final conversion step shared by both `encode` bodies (lines 51-55 and
119-123): `torch.stack` when `convert_to_tensor`, else `np.asarray` when
`convert_to_numpy`, else the plain list. -/
def encodeConvert {E : Type} (ctn ctt : Bool) (all_unsorted : List E) :
    Except PyErr (EncodeResult E) :=
  if ctt then
    match torchStack all_unsorted with
    | .error e => .error e
    | .ok stacked => .ok (.tensor stacked)
  else if ctn then .ok (.nparray (npAsarray all_unsorted))
  else .ok (.pyList all_unsorted)

/-- Every run of the Huggingface wrapper's `encode` is some intermediate
computation followed by the conversion step. -/
theorem encodeHF_factor {E : Type} (ef : List PyVal → Bool → List E)
    (argsortFn : List Nat → List Nat) (sentences : List PyVal)
    (batch_size : Nat) (spb ctn ctt : Bool) :
    ∃ step : Except PyErr (List E),
      WrappedHuggingfaceTransformer.encode ef argsortFn sentences batch_size
          spb ctn ctt =
        match step with
        | .error e => .error e
        | .ok all_unsorted => encodeConvert ctn ctt all_unsorted := by
  unfold WrappedHuggingfaceTransformer.encode
  cases sentences.mapM _text_length with
  | error e => exact ⟨.error e, rfl⟩
  | ok lens =>
    dsimp only
    cases (argsortFn lens).mapM (pyGet sentences) with
    | error e => exact ⟨.error e, rfl⟩
    | ok sentences_sorted =>
      dsimp only
      cases pyRange0 sentences.length batch_size with
      | error e => exact ⟨.error e, rfl⟩
      | ok starts =>
        dsimp only
        cases (argsortFn (argsortFn lens)).mapM
            (pyGet ((starts.map (fun start_index =>
              ef (pySlice sentences_sorted start_index
                (start_index + batch_size)) false)).flatten)) with
        | error e => exact ⟨.error e, rfl⟩
        | ok all_unsorted =>
          refine ⟨.ok all_unsorted, ?_⟩
          unfold encodeConvert
          cases ctt <;> cases ctn <;>
            cases torchStack all_unsorted <;> rfl

/-- Every run of the OpenCLIP wrapper's `encode` is some intermediate
computation followed by the conversion step. -/
theorem encodeOC_factor {E : Type} (ef : List PyVal → Bool → List E)
    (argsortFn : List Nat → List Nat) (sentences : List PyVal)
    (batch_size : Nat) (spb ctn ctt : Bool) :
    ∃ step : Except PyErr (List E),
      WrappedOpenCLIPTransformer.encode ef argsortFn sentences batch_size
          spb ctn ctt =
        match step with
        | .error e => .error e
        | .ok all_unsorted => encodeConvert ctn ctt all_unsorted := by
  unfold WrappedOpenCLIPTransformer.encode
  cases sentences.mapM _text_length with
  | error e => exact ⟨.error e, rfl⟩
  | ok lens =>
    dsimp only
    cases (argsortFn lens).mapM (pyGet sentences) with
    | error e => exact ⟨.error e, rfl⟩
    | ok sentences_sorted =>
      dsimp only
      cases (if spb = true then
               (if "tqdm" ∈ moduleImportedNames then
                  pyRange0 sentences.length batch_size
                else .error PyErr.nameError)
             else pyRange0 sentences.length batch_size) with
      | error e => exact ⟨.error e, rfl⟩
      | ok starts =>
        dsimp only
        cases (argsortFn (argsortFn lens)).mapM
            (pyGet ((starts.map (fun start_index =>
              ef (pySlice sentences_sorted start_index
                (start_index + batch_size)) true)).flatten)) with
        | error e => exact ⟨.error e, rfl⟩
        | ok all_unsorted =>
          refine ⟨.ok all_unsorted, ?_⟩
          unfold encodeConvert
          cases ctt <;> cases ctn <;>
            cases torchStack all_unsorted <;> rfl

/-- A successful conversion with `convert_to_tensor` true is a tensor. -/
theorem encodeConvert_ok_of_ctt {E : Type} (ctn : Bool) (all_unsorted : List E)
    (r : EncodeResult E) (h : encodeConvert ctn true all_unsorted = .ok r) :
    ∃ l, r = .tensor l := by
  unfold encodeConvert at h
  simp only [if_pos rfl] at h
  cases hts : torchStack all_unsorted with
  | error e => rw [hts] at h; exact absurd h (by simp)
  | ok stacked =>
    rw [hts] at h
    exact ⟨stacked, (Except.ok.inj h).symm⟩

/-- A numpy-array conversion result forces `convert_to_tensor = false` and
`convert_to_numpy = true`. -/
theorem encodeConvert_nparray_flags {E : Type} (ctn ctt : Bool)
    (all_unsorted : List E) (l : List E)
    (h : encodeConvert ctn ctt all_unsorted = .ok (.nparray l)) :
    ctt = false ∧ ctn = true := by
  unfold encodeConvert at h
  cases ctt with
  | true =>
    simp only [if_pos rfl] at h
    cases hts : torchStack all_unsorted with
    | error e => rw [hts] at h; exact absurd h (by simp)
    | ok stacked => rw [hts] at h; exact absurd (Except.ok.inj h) (by simp)
  | false =>
    cases ctn with
    | true => exact ⟨rfl, rfl⟩
    | false => simp at h

theorem encodeHF_ok_of_ctt {E : Type} (ef : List PyVal → Bool → List E)
    (argsortFn : List Nat → List Nat) (sentences : List PyVal)
    (batch_size : Nat) (spb ctn : Bool) (r : EncodeResult E)
    (h : WrappedHuggingfaceTransformer.encode ef argsortFn sentences
      batch_size spb ctn true = .ok r) : ∃ l, r = .tensor l := by
  obtain ⟨step, hstep⟩ :=
    encodeHF_factor ef argsortFn sentences batch_size spb ctn true
  rw [hstep] at h
  cases step with
  | error e => exact absurd h (by simp)
  | ok all_unsorted => exact encodeConvert_ok_of_ctt ctn all_unsorted r h

theorem encodeOC_ok_of_ctt {E : Type} (ef : List PyVal → Bool → List E)
    (argsortFn : List Nat → List Nat) (sentences : List PyVal)
    (batch_size : Nat) (spb ctn : Bool) (r : EncodeResult E)
    (h : WrappedOpenCLIPTransformer.encode ef argsortFn sentences
      batch_size spb ctn true = .ok r) : ∃ l, r = .tensor l := by
  obtain ⟨step, hstep⟩ :=
    encodeOC_factor ef argsortFn sentences batch_size spb ctn true
  rw [hstep] at h
  cases step with
  | error e => exact absurd h (by simp)
  | ok all_unsorted => exact encodeConvert_ok_of_ctt ctn all_unsorted r h

theorem encodeHF_nparray_flags {E : Type} (ef : List PyVal → Bool → List E)
    (argsortFn : List Nat → List Nat) (sentences : List PyVal)
    (batch_size : Nat) (spb ctn ctt : Bool) (l : List E)
    (h : WrappedHuggingfaceTransformer.encode ef argsortFn sentences
      batch_size spb ctn ctt = .ok (.nparray l)) :
    ctt = false ∧ ctn = true := by
  obtain ⟨step, hstep⟩ :=
    encodeHF_factor ef argsortFn sentences batch_size spb ctn ctt
  rw [hstep] at h
  cases step with
  | error e => exact absurd h (by simp)
  | ok all_unsorted => exact encodeConvert_nparray_flags ctn ctt all_unsorted l h

theorem encodeOC_nparray_flags {E : Type} (ef : List PyVal → Bool → List E)
    (argsortFn : List Nat → List Nat) (sentences : List PyVal)
    (batch_size : Nat) (spb ctn ctt : Bool) (l : List E)
    (h : WrappedOpenCLIPTransformer.encode ef argsortFn sentences
      batch_size spb ctn ctt = .ok (.nparray l)) :
    ctt = false ∧ ctn = true := by
  obtain ⟨step, hstep⟩ :=
    encodeOC_factor ef argsortFn sentences batch_size spb ctn ctt
  rw [hstep] at h
  cases step with
  | error e => exact absurd h (by simp)
  | ok all_unsorted => exact encodeConvert_nparray_flags ctn ctt all_unsorted l h

theorem encodeConvert_ok_of_ctn {E : Type} (all_unsorted : List E)
    (r : EncodeResult E) (h : encodeConvert true false all_unsorted = .ok r) :
    ∃ l, r = .nparray l := by
  unfold encodeConvert at h
  simp only [Bool.false_eq_true, if_false, if_pos rfl] at h
  exact ⟨npAsarray all_unsorted, (Except.ok.inj h).symm⟩

theorem encodeHF_ok_of_ctn {E : Type} (ef : List PyVal → Bool → List E)
    (argsortFn : List Nat → List Nat) (sentences : List PyVal)
    (batch_size : Nat) (spb : Bool) (r : EncodeResult E)
    (h : WrappedHuggingfaceTransformer.encode ef argsortFn sentences
      batch_size spb true false = .ok r) : ∃ l, r = .nparray l := by
  obtain ⟨step, hstep⟩ :=
    encodeHF_factor ef argsortFn sentences batch_size spb true false
  rw [hstep] at h
  cases step with
  | error e => exact absurd h (by simp)
  | ok all_unsorted => exact encodeConvert_ok_of_ctn all_unsorted r h

theorem encodeOC_ok_of_ctn {E : Type} (ef : List PyVal → Bool → List E)
    (argsortFn : List Nat → List Nat) (sentences : List PyVal)
    (batch_size : Nat) (spb : Bool) (r : EncodeResult E)
    (h : WrappedOpenCLIPTransformer.encode ef argsortFn sentences
      batch_size spb true false = .ok r) : ∃ l, r = .nparray l := by
  obtain ⟨step, hstep⟩ :=
    encodeOC_factor ef argsortFn sentences batch_size spb true false
  rw [hstep] at h
  cases step with
  | error e => exact absurd h (by simp)
  | ok all_unsorted => exact encodeConvert_ok_of_ctn all_unsorted r h

/-- With a truthy `show_progress_bar`, the OpenCLIP wrapper's `encode`
raises `NameError` while building the batch iterator (before any call to the
encoding primitive), because `tqdm` was never imported.  The hypotheses only
require that the preceding length computation and index lookups succeed. -/
theorem encodeOC_progress_nameError {E : Type} (ef : List PyVal → Bool → List E)
    (argsortFn : List Nat → List Nat) (hAs : IsArgsort argsortFn)
    (sentences : List PyVal) (lens : List Nat)
    (hlens : sentences.mapM _text_length = .ok lens)
    (batch_size : Nat) (ctn ctt : Bool) :
    WrappedOpenCLIPTransformer.encode ef argsortFn sentences batch_size
      true ctn ctt = .error PyErr.nameError := by
  have hn : lens.length = sentences.length := mapM_except_ok_length _ _ _ hlens
  have hp1 : (argsortFn lens).Perm (List.range sentences.length) := by
    have := (hAs lens).1
    rwa [hn] at this
  have hsorted := mapM_pyGet_of_lt sentences PyVal.vNoLen (argsortFn lens)
    (mem_lt_of_perm_range hp1)
  have htq : ¬("tqdm" ∈ moduleImportedNames) := by decide
  simp only [WrappedOpenCLIPTransformer.encode, hlens, hsorted,
    eq_self_iff_true, if_true, if_neg htq]

/-- With a falsy `show_progress_bar`, the OpenCLIP wrapper's `encode` is the
same computation as the Huggingface body applied to the
`projection=True` specialisation of the primitive: the `tqdm` name is never
consulted. -/
theorem encodeOC_no_progress_eq {E : Type} (ef : List PyVal → Bool → List E)
    (argsortFn : List Nat → List Nat) (sentences : List PyVal)
    (batch_size : Nat) (ctn ctt : Bool) :
    WrappedOpenCLIPTransformer.encode ef argsortFn sentences batch_size
        false ctn ctt =
      WrappedHuggingfaceTransformer.encode (fun b _ => ef b true) argsortFn
        sentences batch_size false ctn ctt :=
  (encode_wrappers_agree (fun b _ => ef b true) (fun _ => rfl) argsortFn
    sentences batch_size false ctn ctt).symm

/-! ### Claim theorems -/

/-- C1: For every input sequence of texts whose length estimation succeeds
and every positive batch size, the length-bucketed `encode` operation of
both wrapper adapters returns one embedding per input text in the original
input order: for a per-text encoding primitive `e`, position `i` of the
output holds the embedding of input text `i` (the second `np.argsort`
inverts the length-sort permutation), for every function satisfying the
`np.argsort` contract.  (The input is required non-empty so that the default
`convert_to_tensor` branch succeeds.) -/
theorem claim_C1 {E : Type} (e : PyVal → E)
    (argsortFn : List Nat → List Nat) (hAs : IsArgsort argsortFn)
    (sentences : List PyVal) (lens : List Nat)
    (hlens : sentences.mapM _text_length = .ok lens)
    (batch_size : Nat) (hbs : 0 < batch_size) (hne : 0 < sentences.length) :
    WrappedHuggingfaceTransformer.encode (fun b _ => b.map e) argsortFn
        sentences batch_size false true true =
      .ok (.tensor (sentences.map e)) ∧
    WrappedOpenCLIPTransformer.encode (fun b _ => b.map e) argsortFn
        sentences batch_size false true true =
      .ok (.tensor (sentences.map e)) := by
  have hmapne : (sentences.map e).isEmpty = false := by
    cases sentences with
    | nil => exact absurd hne (by simp)
    | cons a t => rfl
  have hstack : torchStack (sentences.map e) = .ok (sentences.map e) := by
    simp [torchStack, hmapne]
  have hHF := encodeHF_pointwise e argsortFn hAs sentences lens hlens
    batch_size hbs false true true
  rw [if_pos rfl, hstack] at hHF
  have hHF' : WrappedHuggingfaceTransformer.encode (fun b _ => b.map e)
      argsortFn sentences batch_size false true true =
      .ok (.tensor (sentences.map e)) := by
    rw [hHF]; rfl
  refine ⟨hHF', ?_⟩
  rw [← encode_wrappers_agree (fun b _ => b.map e) (fun _ => rfl) argsortFn
    sentences batch_size false true true]
  exact hHF'

/-- Witness for C1 at a concrete input: two texts of estimated lengths 2 and
1 (so the length-sort really reorders), encoded by their estimated length. -/
theorem claim_C1_witness :
    WrappedHuggingfaceTransformer.encode
        (fun b _ => b.map (fun v => (pyLen v).getD 0)) stableArgsort
        [PyVal.vStr ['a', 'b'], PyVal.vStr ['c']] 32 false true true =
      .ok (.tensor [2, 1]) ∧
    WrappedOpenCLIPTransformer.encode
        (fun b _ => b.map (fun v => (pyLen v).getD 0)) stableArgsort
        [PyVal.vStr ['a', 'b'], PyVal.vStr ['c']] 32 false true true =
      .ok (.tensor [2, 1]) :=
  claim_C1 (fun v => (pyLen v).getD 0) stableArgsort stableArgsort_isArgsort
    [PyVal.vStr ['a', 'b'], PyVal.vStr ['c']] [2, 1] rfl 32 (by decide)
    (by decide)

/-- C4: `encode` maps the primitive once over the start indices
`batchStartsList`, slicing `pySlice l st (st + batch_size)` at each (this is
the loop body of both wrappers).  The chunks are contiguous, each of length
at most `batch_size`; flattened in order they reproduce the sorted sequence;
the number of chunks is `⌈n / batch_size⌉`, hence exactly one whenever
`batch_size ≥ n > 0`; and a single input item yields the single chunk
`[[x]]` of size 1. -/
theorem claim_C4 :
    (∀ (l : List PyVal) (st bs : Nat), (pySlice l st (st + bs)).length ≤ bs) ∧
    (∀ (l : List PyVal) (bs : Nat), 0 < bs →
      ((batchStartsList l.length bs).map
        (fun st => pySlice l st (st + bs))).flatten = l) ∧
    (∀ (n bs : Nat), (batchStartsList n bs).length = (n + bs - 1) / bs) ∧
    (∀ (n bs : Nat), 0 < n → n ≤ bs → (batchStartsList n bs).length = 1) ∧
    (∀ (x : PyVal) (bs : Nat), 0 < bs →
      (batchStartsList 1 bs).map (fun st => pySlice [x] st (st + bs)) =
        [[x]]) := by
  refine ⟨?_, ?_, ?_, ?_, ?_⟩
  · intro l st bs
    simp only [pySlice, Nat.add_sub_cancel_left, List.length_take]
    omega
  · intro l bs hbs
    exact flatten_batch_slices l bs hbs
  · intro n bs
    exact batchStartsList_length n bs
  · intro n bs hn hbs
    rw [batchStartsList_length]
    apply Nat.div_eq_of_lt_le
    · omega
    · omega
  · intro x bs hbs
    have h1 : batchStartsList 1 bs = [0] := by
      unfold batchStartsList
      have : (1 + bs - 1) / bs = 1 := by
        have h2 : 1 + bs - 1 = bs := by omega
        rw [h2, Nat.div_self hbs]
      rw [this]
      simp [List.range_succ]
    rw [h1]
    simp only [List.map_cons, List.map_nil]
    have : pySlice [x] 0 (0 + bs) = [x] := by
      simp only [pySlice, List.drop_zero, Nat.zero_add, Nat.sub_zero]
      exact List.take_of_length_le (by simpa using hbs)
    rw [this]

/-- Witness for C4 at concrete inputs: two items with batch size 1 produce
two chunks that flatten back, and five items with batch size 8 produce
exactly one chunk. -/
theorem claim_C4_witness :
    ((batchStartsList 2 1).map
      (fun st => pySlice [PyVal.vNoLen, PyVal.vNoLen] st (st + 1))).flatten =
      [PyVal.vNoLen, PyVal.vNoLen] ∧
    (batchStartsList 5 8).length = 1 ∧
    (batchStartsList 1 32).map (fun st => pySlice [PyVal.vNoLen] st (st + 32)) =
      [[PyVal.vNoLen]] :=
  ⟨claim_C4.2.1 [PyVal.vNoLen, PyVal.vNoLen] 1 (by decide),
   claim_C4.2.2.2.1 5 8 (by decide) (by decide),
   claim_C4.2.2.2.2 PyVal.vNoLen 32 (by decide)⟩

/-- C5: the claim states that an empty input yields an empty output under
the default conversion flags; in fact the accumulated embedding list is
empty and the default `convert_to_tensor=True` branch then calls
`torch.stack` on an empty list, which raises `RuntimeError` — in both
wrappers.  With `convert_to_tensor=False` (and `convert_to_numpy=True`) the
intended empty numpy array is returned, confirming that the crash is
specific to the default flags. -/
theorem claim_C5 :
    WrappedHuggingfaceTransformer.encode
        (fun (_ : List PyVal) (_ : Bool) => ([] : List Nat)) stableArgsort
        [] 32 false true true = .error PyErr.runtimeError ∧
    WrappedOpenCLIPTransformer.encode
        (fun (_ : List PyVal) (_ : Bool) => ([] : List Nat)) stableArgsort
        [] 32 false true true = .error PyErr.runtimeError ∧
    WrappedHuggingfaceTransformer.encode
        (fun (_ : List PyVal) (_ : Bool) => ([] : List Nat)) stableArgsort
        [] 32 false true false = .ok (.nparray []) :=
  ⟨rfl, rfl, rfl⟩

/-- C7 (counterexample): the two wrappers do not invoke the underlying
primitive with the same arguments — `WrappedHuggingfaceTransformer.encode`
passes `projection=False` while `WrappedOpenCLIPTransformer.encode` passes
`projection=True` — so for a primitive that distinguishes the `projection`
flag the two encodes differ on the same one-element input. -/
theorem claim_C7_counterexample :
    WrappedHuggingfaceTransformer.encode
        (fun b p => b.map (fun _ => if p then (1 : Nat) else 0)) stableArgsort
        [PyVal.vStr ['a']] 32 false true true ≠
      WrappedOpenCLIPTransformer.encode
        (fun b p => b.map (fun _ => if p then (1 : Nat) else 0)) stableArgsort
        [PyVal.vStr ['a']] 32 false true true := by
  intro h
  have h1 : WrappedHuggingfaceTransformer.encode
      (fun b p => b.map (fun _ => if p then (1 : Nat) else 0)) stableArgsort
      [PyVal.vStr ['a']] 32 false true true = .ok (.tensor [0]) := rfl
  have h2 : WrappedOpenCLIPTransformer.encode
      (fun b p => b.map (fun _ => if p then (1 : Nat) else 0)) stableArgsort
      [PyVal.vStr ['a']] 32 false true true = .ok (.tensor [1]) := rfl
  rw [h1, h2] at h
  simp at h

/-- C7 (amended): the duplicated length-sort-and-rebatch routine performs
the same length estimation, sorting, chunking and conversion in both
wrappers; for every primitive that is insensitive to the `projection` flag
(the one argument on which the two call sites differ) and with the progress
bar off, the two encodes produce identical results for all inputs, batch
sizes and conversion flags. -/
theorem claim_C7_amended {E : Type} (ef : List PyVal → Bool → List E)
    (hef : ∀ b, ef b false = ef b true) (argsortFn : List Nat → List Nat)
    (sentences : List PyVal) (batch_size : Nat) (spb ctn ctt : Bool) :
    WrappedHuggingfaceTransformer.encode ef argsortFn sentences batch_size
        spb ctn ctt =
      WrappedOpenCLIPTransformer.encode ef argsortFn sentences batch_size
        false ctn ctt :=
  encode_wrappers_agree ef hef argsortFn sentences batch_size spb ctn ctt

/-- Witness for the amended C7 at a concrete projection-insensitive
primitive and input. -/
theorem claim_C7_amended_witness :
    WrappedHuggingfaceTransformer.encode
        (fun b _ => b.map (fun _ => (0 : Nat))) stableArgsort
        [PyVal.vStr ['a']] 32 true true true =
      WrappedOpenCLIPTransformer.encode
        (fun b _ => b.map (fun _ => (0 : Nat))) stableArgsort
        [PyVal.vStr ['a']] 32 false true true :=
  claim_C7_amended (fun b _ => b.map (fun _ => (0 : Nat))) (fun _ => rfl)
    stableArgsort [PyVal.vStr ['a']] 32 true true true

/-- C9: calling `WrappedOpenCLIPTransformer.encode` with a truthy
`show_progress_bar` raises `NameError` while building the batch iterator —
for every encoding primitive, i.e. before any batch is encoded — because
`tqdm` is referenced but never imported; with `show_progress_bar` falsy the
same call never consults that name (it is the same computation as the
tqdm-free Huggingface body applied to the `projection=True` primitive); and
`WrappedHuggingfaceTransformer.encode` ignores `show_progress_bar`
entirely. -/
theorem claim_C9 :
    (∀ (E : Type) (ef : List PyVal → Bool → List E)
      (argsortFn : List Nat → List Nat), IsArgsort argsortFn →
      ∀ (sentences : List PyVal) (lens : List Nat),
        sentences.mapM _text_length = .ok lens →
      ∀ (batch_size : Nat) (ctn ctt : Bool),
        WrappedOpenCLIPTransformer.encode ef argsortFn sentences batch_size
          true ctn ctt = .error PyErr.nameError) ∧
    (∀ (E : Type) (ef : List PyVal → Bool → List E)
      (argsortFn : List Nat → List Nat) (sentences : List PyVal)
      (batch_size : Nat) (ctn ctt : Bool),
        WrappedOpenCLIPTransformer.encode ef argsortFn sentences batch_size
          false ctn ctt =
        WrappedHuggingfaceTransformer.encode (fun b _ => ef b true) argsortFn
          sentences batch_size false ctn ctt) ∧
    (∀ (E : Type) (ef : List PyVal → Bool → List E)
      (argsortFn : List Nat → List Nat) (sentences : List PyVal)
      (batch_size : Nat) (spb spb' ctn ctt : Bool),
        WrappedHuggingfaceTransformer.encode ef argsortFn sentences batch_size
          spb ctn ctt =
        WrappedHuggingfaceTransformer.encode ef argsortFn sentences batch_size
          spb' ctn ctt) := by
  refine ⟨?_, ?_, ?_⟩
  · intro E ef argsortFn hAs sentences lens hlens batch_size ctn ctt
    exact encodeOC_progress_nameError ef argsortFn hAs sentences lens hlens
      batch_size ctn ctt
  · intro E ef argsortFn sentences batch_size ctn ctt
    exact encodeOC_no_progress_eq ef argsortFn sentences batch_size ctn ctt
  · intro E ef argsortFn sentences batch_size spb spb' ctn ctt
    rfl

/-- Witness for C9 at a concrete non-empty input: the truthy call fails
with `NameError` before any encoding. -/
theorem claim_C9_witness :
    WrappedOpenCLIPTransformer.encode
        (fun b _ => b.map (fun _ => (0 : Nat))) stableArgsort
        [PyVal.vStr ['a']] 32 true true true = .error PyErr.nameError :=
  claim_C9.1 Nat (fun b _ => b.map (fun _ => (0 : Nat))) stableArgsort
    stableArgsort_isArgsort [PyVal.vStr ['a']] [1] rfl 32 true true

/-- C10: `convert_to_tensor` takes precedence over `convert_to_numpy` in
both wrappers: with `convert_to_tensor` true, every successful result is a
stacked tensor (never a numpy array), regardless of `convert_to_numpy`;
a numpy array can only be returned when `convert_to_tensor` is false and
`convert_to_numpy` is true, and in that flag combination every successful
result is a numpy array. -/
theorem claim_C10 :
    (∀ (E : Type) (ef : List PyVal → Bool → List E)
      (argsortFn : List Nat → List Nat) (sentences : List PyVal)
      (batch_size : Nat) (spb ctn : Bool) (r : EncodeResult E),
        WrappedHuggingfaceTransformer.encode ef argsortFn sentences
          batch_size spb ctn true = .ok r → ∃ l, r = .tensor l) ∧
    (∀ (E : Type) (ef : List PyVal → Bool → List E)
      (argsortFn : List Nat → List Nat) (sentences : List PyVal)
      (batch_size : Nat) (spb ctn : Bool) (r : EncodeResult E),
        WrappedOpenCLIPTransformer.encode ef argsortFn sentences
          batch_size spb ctn true = .ok r → ∃ l, r = .tensor l) ∧
    (∀ (E : Type) (ef : List PyVal → Bool → List E)
      (argsortFn : List Nat → List Nat) (sentences : List PyVal)
      (batch_size : Nat) (spb ctn ctt : Bool) (l : List E),
        WrappedHuggingfaceTransformer.encode ef argsortFn sentences
          batch_size spb ctn ctt = .ok (.nparray l) →
        ctt = false ∧ ctn = true) ∧
    (∀ (E : Type) (ef : List PyVal → Bool → List E)
      (argsortFn : List Nat → List Nat) (sentences : List PyVal)
      (batch_size : Nat) (spb ctn ctt : Bool) (l : List E),
        WrappedOpenCLIPTransformer.encode ef argsortFn sentences
          batch_size spb ctn ctt = .ok (.nparray l) →
        ctt = false ∧ ctn = true) ∧
    (∀ (E : Type) (ef : List PyVal → Bool → List E)
      (argsortFn : List Nat → List Nat) (sentences : List PyVal)
      (batch_size : Nat) (spb : Bool) (r : EncodeResult E),
        WrappedHuggingfaceTransformer.encode ef argsortFn sentences
          batch_size spb true false = .ok r → ∃ l, r = .nparray l) ∧
    (∀ (E : Type) (ef : List PyVal → Bool → List E)
      (argsortFn : List Nat → List Nat) (sentences : List PyVal)
      (batch_size : Nat) (spb : Bool) (r : EncodeResult E),
        WrappedOpenCLIPTransformer.encode ef argsortFn sentences
          batch_size spb true false = .ok r → ∃ l, r = .nparray l) := by
  refine ⟨?_, ?_, ?_, ?_, ?_, ?_⟩
  · intro E ef argsortFn sentences batch_size spb ctn r h
    exact encodeHF_ok_of_ctt ef argsortFn sentences batch_size spb ctn r h
  · intro E ef argsortFn sentences batch_size spb ctn r h
    exact encodeOC_ok_of_ctt ef argsortFn sentences batch_size spb ctn r h
  · intro E ef argsortFn sentences batch_size spb ctn ctt l h
    exact encodeHF_nparray_flags ef argsortFn sentences batch_size spb ctn
      ctt l h
  · intro E ef argsortFn sentences batch_size spb ctn ctt l h
    exact encodeOC_nparray_flags ef argsortFn sentences batch_size spb ctn
      ctt l h
  · intro E ef argsortFn sentences batch_size spb r h
    exact encodeHF_ok_of_ctn ef argsortFn sentences batch_size spb r h
  · intro E ef argsortFn sentences batch_size spb r h
    exact encodeOC_ok_of_ctn ef argsortFn sentences batch_size spb r h

/-- Witness for C10 at a concrete run: with the default flags the concrete
result is a tensor, and with `convert_to_tensor=False`,
`convert_to_numpy=True` it is a numpy array. -/
theorem claim_C10_witness :
    (∃ l, (EncodeResult.tensor [(0 : Nat)]) = .tensor l) ∧
    (∃ l, (EncodeResult.nparray [(0 : Nat)]) = .nparray l) :=
  ⟨claim_C10.1 Nat (fun b _ => b.map (fun _ => 0)) stableArgsort
      [PyVal.vStr ['a']] 32 false true (.tensor [0]) rfl,
   claim_C10.2.2.2.2.1 Nat (fun b _ => b.map (fun _ => 0)) stableArgsort
      [PyVal.vStr ['a']] 32 false (.nparray [0]) rfl⟩

/-- Summing a constant-one map counts the elements. -/
theorem sum_map_one {A : Type} :
    ∀ l : List A, (l.map (fun _ => (1 : Nat))).sum = l.length := by
  intro l
  induction l with
  | nil => rfl
  | cons a t ih => simp [List.map_cons, List.sum_cons, ih, Nat.add_comm]

/-- Python `len` over the one-character strings of a string: all ones. -/
theorem mapM_pyLen_chars :
    ∀ s : List Char, (s.map (fun ch => PyVal.vStr [ch])).mapM pyLen =
      some (s.map (fun _ => (1 : Nat))) := by
  intro s
  rw [← List.mapM'_eq_mapM]
  induction s with
  | nil => rfl
  | cons c cs ih =>
    rw [List.map_cons, List.mapM'_cons, ih]
    rfl

/-- Python `len` over a list of strings: their lengths. -/
theorem mapM_pyLen_vStrs :
    ∀ ss : List (List Char), (ss.map PyVal.vStr).mapM pyLen =
      some (ss.map List.length) := by
  intro ss
  rw [← List.mapM'_eq_mapM]
  induction ss with
  | nil => rfl
  | cons s rest ih =>
    rw [List.map_cons, List.mapM'_cons, ih]
    rfl

/-- The estimated length of a string is its length (the sum over its
one-character constituent strings). -/
theorem text_length_vStr (s : List Char) :
    _text_length (.vStr s) = .ok s.length := by
  cases s with
  | nil => rfl
  | cons c cs =>
    calc _text_length (.vStr (c :: cs))
        = (match ((c :: cs).map (fun ch => PyVal.vStr [ch])).mapM pyLen with
           | none => Except.error PyErr.typeError
           | some ls => Except.ok ls.sum) := rfl
      _ = .ok ((c :: cs).map (fun _ => (1 : Nat))).sum := by
          rw [mapM_pyLen_chars]
      _ = .ok (c :: cs).length := by rw [sum_map_one]

/-- The estimated length of a non-empty list of strings is the sum of their
lengths. -/
theorem text_length_vStrList (s : List Char) (ss : List (List Char)) :
    _text_length (.vList ((s :: ss).map PyVal.vStr)) =
      .ok ((s :: ss).map List.length).sum := by
  calc _text_length (.vList ((s :: ss).map PyVal.vStr))
      = (match ((s :: ss).map PyVal.vStr).mapM pyLen with
         | none => Except.error PyErr.typeError
         | some ls => Except.ok ls.sum) := rfl
    _ = .ok ((s :: ss).map List.length).sum := by rw [mapM_pyLen_vStrs]

/-- C2: the estimated-length function returns the length of the first value
for a mapping item; 1 for an item without a length concept; the item's own
length for an empty sequence or a sequence whose first element is an
integer; and otherwise the sum of the lengths of the constituent strings
(for a plain string, the sum over its one-character strings, i.e. its
length; for a list of strings, the sum of their lengths).  In particular a
3-character string gets 3, a 5-element integer sequence gets 5, and an
object without `__len__` gets 1. -/
theorem claim_C2 :
    (∀ (v : PyVal) (vs : List PyVal) (n : Nat), pyLen v = some n →
      _text_length (.vDict (v :: vs)) = .ok n) ∧
    (∀ t : PyVal, pyLen t = none → _text_length t = .ok 1) ∧
    (_text_length (.vStr []) = .ok 0 ∧ _text_length (.vList []) = .ok 0) ∧
    (∀ (k : Int) (rest : List PyVal),
      _text_length (.vList (.vInt k :: rest)) = .ok (rest.length + 1)) ∧
    (∀ s : List Char, _text_length (.vStr s) = .ok s.length) ∧
    (∀ (s : List Char) (ss : List (List Char)),
      _text_length (.vList ((s :: ss).map PyVal.vStr)) =
        .ok ((s :: ss).map List.length).sum) ∧
    (_text_length (.vStr ['a', 'b', 'c']) = .ok 3 ∧
      _text_length (.vList
        [.vInt 1, .vInt 2, .vInt 3, .vInt 4, .vInt 5]) = .ok 5 ∧
      _text_length PyVal.vNoLen = .ok 1) := by
  refine ⟨?_, ?_, ⟨rfl, rfl⟩, ?_, ?_, ?_, ⟨rfl, rfl, rfl⟩⟩
  · intro v vs n h
    simp [_text_length, h]
  · intro t h
    cases t <;> simp_all [_text_length, pyLen]
  · intro k rest
    rfl
  · intro s
    exact text_length_vStr s
  · intro s ss
    exact text_length_vStrList s ss

/-- Witness for C2: a mapping item whose first value is the two-character
string `hi` gets estimated length 2. -/
theorem claim_C2_witness :
    _text_length (.vDict [.vStr ['h', 'i'], .vNoLen]) = .ok 2 :=
  claim_C2.1 (.vStr ['h', 'i']) [.vNoLen] 2 rfl

/-- C3: the three hardcoded model lists are pairwise disjoint; a model name
in one of them selects exactly the corresponding adapter; and a name in none
of them reaches the unconditional `raise` of the final `else`. -/
theorem claim_C3 :
    (∀ m ∈ huggingface_transformers, m ∉ sentence_transformers) ∧
    (∀ m ∈ huggingface_transformers, m ∉ open_clip_transformers) ∧
    (∀ m ∈ sentence_transformers, m ∉ open_clip_transformers) ∧
    (∀ m ∈ huggingface_transformers, dispatch m = .wrappedHF) ∧
    (∀ m ∈ sentence_transformers, dispatch m = .sentenceT) ∧
    (∀ m ∈ open_clip_transformers, dispatch m = .wrappedOC) ∧
    (∀ m, m ∉ huggingface_transformers → m ∉ sentence_transformers →
      m ∉ open_clip_transformers → dispatch m = .failure) := by
  have h12 : ∀ m ∈ huggingface_transformers, m ∉ sentence_transformers := by
    decide
  have h13 : ∀ m ∈ huggingface_transformers, m ∉ open_clip_transformers := by
    decide
  have h23 : ∀ m ∈ sentence_transformers, m ∉ open_clip_transformers := by
    decide
  have h21 : ∀ m ∈ sentence_transformers, m ∉ huggingface_transformers := by
    decide
  have h31 : ∀ m ∈ open_clip_transformers, m ∉ huggingface_transformers := by
    decide
  have h32 : ∀ m ∈ open_clip_transformers, m ∉ sentence_transformers := by
    decide
  refine ⟨h12, h13, h23, ?_, ?_, ?_, ?_⟩
  · intro m hm
    rw [dispatch, if_pos hm]
  · intro m hm
    rw [dispatch, if_neg (h21 m hm), if_pos hm]
  · intro m hm
    rw [dispatch, if_neg (h31 m hm), if_neg (h32 m hm), if_pos hm]
  · intro m h1 h2 h3
    rw [dispatch, if_neg h1, if_neg h2, if_neg h3]

/-- Witness for C3 at concrete names: one name from each list selects the
matching adapter and an unknown name fails. -/
theorem claim_C3_witness :
    dispatch "roberta-base" = .wrappedHF ∧
    dispatch "average_word_embeddings_komninos" = .sentenceT ∧
    dispatch "RN50" = .wrappedOC ∧
    dispatch "gpt2" = .failure :=
  ⟨claim_C3.2.2.2.1 "roberta-base" (by decide),
   claim_C3.2.2.2.2.1 "average_word_embeddings_komninos" (by decide),
   claim_C3.2.2.2.2.2.1 "RN50" (by decide),
   claim_C3.2.2.2.2.2.2 "gpt2" (by decide) (by decide) (by decide)⟩

/-- C8: after evaluating model `m`, the script writes a tab-separated
single-row table at `PLM_evaluations/sts-` + (`m` with `/` replaced by `-`)
+ `.csv` whose columns are the metric names returned by the evaluator
followed by a `model` column containing `m` (provided the evaluator did not
itself return a metric named `model`, in which case the dict assignment
would overwrite it instead of appending). -/
theorem claim_C8 {V : Type} (metrics : List (String × V)) (model_name : String)
    (h : "model" ∉ metrics.map Prod.fst) :
    (scriptOutput metrics model_name).path =
      "PLM_evaluations/sts-" ++ model_name.replace "/" "-" ++ ".csv" ∧
    (scriptOutput metrics model_name).sep = '\t' ∧
    (scriptOutput metrics model_name).header =
      metrics.map Prod.fst ++ ["model"] ∧
    (scriptOutput metrics model_name).row =
      metrics.map (fun kv => PdCell.score kv.snd) ++
        [PdCell.name model_name] := by
  have hany : ((metrics.map
      (fun kv => (kv.fst, PdCell.score kv.snd))).any
        (fun kv => kv.fst == "model")) = false := by
    rw [List.any_eq_false]
    intro kv hkv
    rw [List.mem_map] at hkv
    obtain ⟨orig, horig, hkv'⟩ := hkv
    subst hkv'
    simp only [beq_iff_eq]
    intro hcontra
    exact h (hcontra ▸ List.mem_map_of_mem Prod.fst horig)
  refine ⟨rfl, rfl, ?_, ?_⟩
  · simp [scriptOutput, pyDictSet, hany, List.map_map, Function.comp]
  · simp [scriptOutput, pyDictSet, hany, List.map_map, Function.comp]

/-- Witness for C8 at a concrete metric record and a model name containing
a slash. -/
theorem claim_C8_witness :
    (scriptOutput [("sts-avg", (7 : Nat))]
      "princeton-nlp/sup-simcse-roberta-large").path =
      "PLM_evaluations/sts-" ++
        ("princeton-nlp/sup-simcse-roberta-large".replace "/" "-") ++ ".csv" ∧
    (scriptOutput [("sts-avg", (7 : Nat))]
      "princeton-nlp/sup-simcse-roberta-large").header =
      ["sts-avg", "model"] ∧
    (scriptOutput [("sts-avg", (7 : Nat))]
      "princeton-nlp/sup-simcse-roberta-large").row =
      [PdCell.score 7, PdCell.name "princeton-nlp/sup-simcse-roberta-large"] :=
  ⟨(claim_C8 [("sts-avg", 7)] "princeton-nlp/sup-simcse-roberta-large"
      (by decide)).1,
   (claim_C8 [("sts-avg", 7)] "princeton-nlp/sup-simcse-roberta-large"
      (by decide)).2.2.1,
   (claim_C8 [("sts-avg", 7)] "princeton-nlp/sup-simcse-roberta-large"
      (by decide)).2.2.2⟩
